import Mathlib

/-!
Verification of the persistence-and-view-derivation core of the AI safety
incident dashboard (`src/components/Dashboard.tsx`).

The component is a single React function. We embed:
  * the `Incident` record type and the `initialIncidents` seed set;
  * the IndexedDB facade `saveIncidentsToDB` / `loadIncidentsFromDB`,
    modelling the object store (keyed by `id`, so `getAll` returns records
    in ascending key order) as a list kept in ascending-id order;
  * the component state (`incidents`, `newIncident` form, `deletePopup`)
    together with the persistence effect `useEffect([incidents])`, as a
    deterministic step function over UI events that also reports the
    `saveIncidentsToDB` calls issued and the toasts emitted;
  * the derived-view pipeline (severity filter, case-insensitive search,
    sort by `reported_at`).

Timestamps: the source stores `reported_at` as an ISO-8601 string and always
compares timestamps through `new Date(s).getTime()`; since the ISO string and
its epoch-millisecond value determine each other on the relevant range, the
embedding represents `reported_at` directly by that number.
-/

namespace Sparklehood

/-- The severity enumeration (`type Severity = "Low" | "Medium" | "High"`). -/
inductive Severity where
  | low
  | medium
  | high
deriving DecidableEq, Repr

/-- The `Incident` interface from `Dashboard.tsx`. `reported_at` is the
epoch-millisecond value of the stored ISO-8601 string (see file header). -/
structure Incident where
  id : Nat
  title : String
  description : String
  severity : Severity
  reported_at : Nat
deriving DecidableEq, Repr

/-- The seed data `initialIncidents` (ids 1, 2, 3); the `reported_at` numbers
are the epoch-millisecond values of the ISO strings in the source
(`2025-03-15T10:00:00Z`, `2025-04-01T14:30:00Z`, `2025-03-20T09:15:00Z`). -/
def initialIncidents : List Incident :=
  [ { id := 1
      title := "Biased Recommendation Algorithm"
      description := "Algorithm consistently favored certain demographics..."
      severity := .medium
      reported_at := 1742032800000 },
    { id := 2
      title := "LLM Hallucination in Critical Info"
      description := "LLM provided incorrect safety procedure information..."
      severity := .high
      reported_at := 1743517800000 },
    { id := 3
      title := "Minor Data Leak via Chatbot"
      description := "Chatbot inadvertently exposed non-sensitive user metadata..."
      severity := .low
      reported_at := 1742462100000 } ]

/-- The IndexedDB object store `incidents` is keyed by `id`; it is modelled as
the list of its records in ascending key order, which is the order
`IDBObjectStore.getAll` returns them in. -/
abbrev DBStore := List Incident

/-- Records in ascending-id (IndexedDB key) order. -/
def sortById (l : List Incident) : List Incident :=
  l.insertionSort (fun a b => a.id ≤ b.id)

/-- `saveIncidentsToDB`: one `readwrite` transaction that clears the store and
`add`s every record. When the ids are pairwise distinct every `add` succeeds
and the committed store holds exactly the given records (in key order); a
duplicate id makes an `add` fail, the transaction aborts, and the store keeps
its previous contents. -/
def saveIncidentsToDB (incidents : List Incident) (db : DBStore) : DBStore :=
  if (incidents.map Incident.id).Nodup then sortById incidents else db

/-- `loadIncidentsFromDB`: `getAll` on the store; a non-empty result is
returned as is, otherwise the store is seeded with `initialIncidents` and that
seed list is returned. Result: (value resolved to the caller, store after the
call). -/
def loadIncidentsFromDB (db : DBStore) : List Incident × DBStore :=
  if db.length > 0 then (db, db)
  else (initialIncidents, saveIncidentsToDB initialIncidents db)

/-! ### Derived-view pipeline -/

/-- The severity filter state (`Severity | "All"`). -/
inductive Filt where
  | all
  | sev (s : Severity)
deriving DecidableEq, Repr

/-- The sort-order state (`type SortOrder = "newest" | "oldest"`). -/
inductive SortOrder where
  | newest
  | oldest
deriving DecidableEq, Repr

/-- `String.prototype.toLowerCase` on the basic-latin range, as the source's
ASCII data uses it: lower-case every character. (Structural re-statement of
`String.toLower`, kept kernel-reducible.) -/
def jsToLower (s : String) : String :=
  ⟨s.data.map Char.toLower⟩

/-- Contiguous-sublist test on character lists, the meaning of
`String.prototype.includes`. -/
def listContainsSub (pat : List Char) : List Char → Bool
  | [] => pat.isEmpty
  | c :: rest => pat.isPrefixOf (c :: rest) || listContainsSub pat rest

/-- `s.includes(pat)`: `pat` occurs contiguously in `s`. -/
def jsIncludes (s pat : String) : Bool :=
  listContainsSub pat.data s.data

/-- Filter stage: `incidents.filter(i => filter === "All" || i.severity === filter)`. -/
def filterStage (f : Filt) (l : List Incident) : List Incident :=
  l.filter (fun i =>
    match f with
    | .all => true
    | .sev s => i.severity == s)

/-- The search predicate:
`i.title.toLowerCase().includes(searchTerm.toLowerCase()) ||`
`i.description.toLowerCase().includes(searchTerm.toLowerCase())`. -/
def searchKeep (term : String) (i : Incident) : Bool :=
  jsIncludes (jsToLower i.title) (jsToLower term) ||
    jsIncludes (jsToLower i.description) (jsToLower term)

/-- Search stage: `.filter(i => ...searchKeep...)`. -/
def searchStage (term : String) (l : List Incident) : List Incident :=
  l.filter (searchKeep term)

/-- The order the sort comparator induces: `a` may stay before `b` exactly
when the comparator `(a, b) => newest ? tb - ta : ta - tb` is `≤ 0`. -/
def sortLe (ord : SortOrder) (a b : Incident) : Prop :=
  match ord with
  | .newest => b.reported_at ≤ a.reported_at
  | .oldest => a.reported_at ≤ b.reported_at

instance (ord : SortOrder) : DecidableRel (sortLe ord) := by
  intro a b
  cases ord <;> simp only [sortLe] <;> infer_instance

/-- Sort stage: `.sort(comparator)`. ECMAScript `Array.prototype.sort` is
stable and, for a consistent comparator such as this one, produces the unique
stable reordering sorted by the comparator; any stable sorting algorithm over
`sortLe ord` realises it, and we use insertion sort. -/
def sortStage (ord : SortOrder) (l : List Incident) : List Incident :=
  l.insertionSort (sortLe ord)

/-- The `useEffect` that derives `filteredIncidents`: severity filter, then
search filter, then sort. -/
def deriveFiltered (f : Filt) (term : String) (ord : SortOrder)
    (l : List Incident) : List Incident :=
  sortStage ord (searchStage term (filterStage f l))

/-! ### Component state machine -/

/-- The `newIncident` form state. The source keeps `severity` as a string that
only ever holds `"Low"`, `"Medium"` or `"High"` (the three setter buttons) and
casts it to `Severity` on submit; it is embedded as `Severity` directly. -/
structure NewIncidentForm where
  title : String
  description : String
  severity : Severity
deriving DecidableEq, Repr

/-- The `deletePopup` state. -/
structure DeletePopup where
  isOpen : Bool
  incidentId : Nat
  title : String
deriving DecidableEq, Repr

/-- A toast emitted through `react-toastify`. -/
inductive Toast where
  | error (msg : String)
  | success (msg : String)
  | info (msg : String)
deriving DecidableEq, Repr

/-- Component state relevant to the claims, plus the IndexedDB store the
persistence effect writes to. -/
structure DashState where
  incidents : List Incident
  newIncident : NewIncidentForm
  deletePopup : DeletePopup
  db : DBStore
deriving DecidableEq, Repr

/-- Result of processing one event: the new state, the payloads of the
`saveIncidentsToDB` calls issued while processing it, and the toasts shown. -/
structure StepOut where
  state : DashState
  saves : List (List Incident)
  toasts : List Toast
deriving DecidableEq, Repr

/-- The `useEffect([incidents])` persistence effect. It runs after any
`setIncidents` (both `cons` and `filter` build a new array, so the dependency
always changes) and calls `saveIncidentsToDB(incidents)` only when
`incidents.length > 0`. -/
def runSaveEffect (s : DashState) : DashState × List (List Incident) :=
  if s.incidents.length > 0 then
    ({ s with db := saveIncidentsToDB s.incidents s.db }, [s.incidents])
  else (s, [])

/-- The UI events that touch the state the claims are about. `submit` carries
the `Date.now()` value observed while the handler runs. -/
inductive Event where
  | submit (now : Nat)
  | requestDelete (id : Nat) (title : String)
  | confirmDeleteBtn
  | cancelDeleteBtn
  | setTitle (t : String)
  | setDescription (d : String)
  | setSeverity (v : Severity)
deriving DecidableEq, Repr

/-- `handleSubmit`: reject when `!title || !description` (empty string is
falsy); otherwise build the entry with `id = Date.now()`,
`reported_at = new Date().toISOString()` (same instant, embedded as the same
number), prepend it, reset the form, and let the persistence effect run. -/
def handleSubmit (now : Nat) (s : DashState) : StepOut :=
  if s.newIncident.title = "" ∨ s.newIncident.description = "" then
    ⟨s, [], [.error "Please fill all fields"]⟩
  else
    let newEntry : Incident :=
      { id := now
        title := s.newIncident.title
        description := s.newIncident.description
        severity := s.newIncident.severity
        reported_at := now }
    let s1 := { s with
      incidents := newEntry :: s.incidents
      newIncident := ⟨"", "", .low⟩ }
    let r := runSaveEffect s1
    ⟨r.1, r.2,
      [.success ("New incident \"" ++ s.newIncident.title ++ "\" added successfully!")]⟩

/-- `showDeleteConfirm(id, title)`: open the confirmation popup, nothing else. -/
def showDeleteConfirm (id : Nat) (title : String) (s : DashState) : StepOut :=
  ⟨{ s with deletePopup := ⟨true, id, title⟩ }, [], []⟩

/-- `confirmDelete`: drop every incident whose id equals the popup's
`incidentId`, emit the info toast, close and reset the popup, and let the
persistence effect run. -/
def confirmDelete (s : DashState) : StepOut :=
  let s1 := { s with
    incidents := s.incidents.filter (fun inc => inc.id != s.deletePopup.incidentId)
    deletePopup := ⟨false, 0, ""⟩ }
  let r := runSaveEffect s1
  ⟨r.1, r.2,
    [.info ("Incident \"" ++ s.deletePopup.title ++ "\" has been deleted")]⟩

/-- The cancel button: `setDeletePopup(prev => ({ ...prev, isOpen: false }))`. -/
def cancelDelete (s : DashState) : StepOut :=
  ⟨{ s with deletePopup := { s.deletePopup with isOpen := false } }, [], []⟩

/-- One step of the component: dispatch a UI event to its handler. The form
`onChange` handlers only rewrite `newIncident`, so they issue no persistence
call and no toast. -/
def step (e : Event) (s : DashState) : StepOut :=
  match e with
  | .submit now => handleSubmit now s
  | .requestDelete id title => showDeleteConfirm id title s
  | .confirmDeleteBtn => confirmDelete s
  | .cancelDeleteBtn => cancelDelete s
  | .setTitle t =>
      ⟨{ s with newIncident := { s.newIncident with title := t } }, [], []⟩
  | .setDescription d =>
      ⟨{ s with newIncident := { s.newIncident with description := d } }, [], []⟩
  | .setSeverity v =>
      ⟨{ s with newIncident := { s.newIncident with severity := v } }, [], []⟩

/-! ### Claim-specific definitions -/

/-- The search-stage acceptance as the spec words it: keep a record iff the
term is empty, or title or description contains the term under
case-insensitive substring matching. Stated separately so it can be compared
with the source predicate `searchKeep`. -/
def specSearchKeep (term : String) (i : Incident) : Bool :=
  decide (term = "") ||
    jsIncludes (jsToLower i.title) (jsToLower term) ||
    jsIncludes (jsToLower i.description) (jsToLower term)

/-- Scenario for the same-instant create collision: empty store, form filled
with title `A` and description `B`. -/
def c5s0 : DashState := ⟨[], ⟨"A", "B", .low⟩, ⟨false, 0, ""⟩, []⟩

/-- After the first submit at clock value 100. -/
def c5s1 : DashState := (step (.submit 100) c5s0).state

/-- Refill the form title. -/
def c5s2 : DashState := (step (.setTitle "C") c5s1).state

/-- Refill the form description. -/
def c5s3 : DashState := (step (.setDescription "D") c5s2).state

/-- After a second submit at the same clock value 100. -/
def c5s4 : DashState := (step (.submit 100) c5s3).state

/-! ### Helper lemmas -/

/-- The persistence effect never changes `incidents`. -/
theorem runSaveEffect_incidents (s : DashState) :
    (runSaveEffect s).1.incidents = s.incidents := by
  unfold runSaveEffect
  split <;> rfl

/-- The persistence effect on a non-empty record set: one save of the full
set, store replaced accordingly. -/
theorem runSaveEffect_of_ne_nil (s : DashState) (h : s.incidents ≠ []) :
    runSaveEffect s =
      ({ s with db := saveIncidentsToDB s.incidents s.db }, [s.incidents]) := by
  unfold runSaveEffect
  rw [if_pos (List.length_pos.mpr h)]

/-- The persistence effect on an empty record set: no save, store untouched. -/
theorem runSaveEffect_of_nil (s : DashState) (h : s.incidents = []) :
    runSaveEffect s = (s, []) := by
  unfold runSaveEffect
  rw [if_neg]
  simp [h]

/-- A put of a non-empty record list never empties a non-empty store. -/
theorem saveIncidentsToDB_ne_nil (l : List Incident) (db : DBStore)
    (hl : l ≠ []) (hdb : db ≠ []) : saveIncidentsToDB l db ≠ [] := by
  unfold saveIncidentsToDB
  split
  · intro hnil
    exact hl ((List.perm_insertionSort (fun a b => a.id ≤ b.id) l).symm.trans
      (hnil ▸ List.Perm.refl _)).eq_nil
  · exact hdb

/-- The empty pattern is a contiguous sublist of every character list. -/
theorem listContainsSub_nil (l : List Char) : listContainsSub [] l = true := by
  induction l with
  | nil => rfl
  | cons c rest ih => simp [listContainsSub, List.isPrefixOf]

/-- Lower-casing the empty string yields the empty string. -/
theorem jsToLower_empty : jsToLower "" = "" := rfl

/-- Every string includes the empty string. -/
theorem jsIncludes_empty (s : String) : jsIncludes s "" = true :=
  listContainsSub_nil s.data

/-- Filtering after an ordered insert, when every element accepted by the
predicate is reachable from an accepted inserted element: the inserted element
lands in front of all accepted ones. -/
theorem filter_orderedInsert {α : Type} (r : α → α → Prop) [DecidableRel r]
    (p : α → Bool) (a : α) (l : List α)
    (h : ∀ b, p b = true → p a = true → r a b) :
    (l.orderedInsert r a).filter p =
      if p a then a :: l.filter p else l.filter p := by
  induction l with
  | nil =>
    by_cases hpa : p a <;> simp [List.orderedInsert, List.filter_cons, hpa]
  | cons b l ih =>
    by_cases hr : r a b
    · by_cases hpa : p a <;>
        simp [List.orderedInsert, hr, List.filter_cons, hpa]
    · by_cases hpa : p a
      · have hpb : p b = false := by
          by_contra hpb
          exact hr (h b (Bool.of_not_eq_false hpb) hpa)
        simp [List.orderedInsert, hr, List.filter_cons, hpb, ih, hpa]
      · simp only [Bool.not_eq_true] at hpa
        by_cases hpb : p b <;>
          simp [List.orderedInsert, hr, List.filter_cons, hpb, ih, hpa]

/-- Stability of insertion sort, filter form: when all accepted elements are
mutually related, sorting commutes with filtering. -/
theorem filter_insertionSort {α : Type} (r : α → α → Prop) [DecidableRel r]
    (p : α → Bool) (l : List α)
    (h : ∀ a b, p a = true → p b = true → r a b) :
    (l.insertionSort r).filter p = l.filter p := by
  induction l with
  | nil => rfl
  | cons a l ih =>
    rw [List.insertionSort, filter_orderedInsert r p a _
      (fun b hb ha => h a b ha hb)]
    by_cases hpa : p a <;> simp [List.filter_cons, hpa, ih]

/-! ### Claim theorems -/

/-- Claim C1: persisting a non-empty list of incidents with pairwise-distinct
ids via `saveIncidentsToDB` and then loading with `loadIncidentsFromDB`
returns exactly that multiset of incidents — same ids, same field values,
nothing dropped, nothing duplicated (a permutation of the input). -/
theorem roundTrip_loadAll_after_replaceAll (l : List Incident) (db : DBStore)
    (hne : l ≠ []) (hnd : (l.map Incident.id).Nodup) :
    (loadIncidentsFromDB (saveIncidentsToDB l db)).1.Perm l := by
  have hsave : saveIncidentsToDB l db = sortById l := by
    unfold saveIncidentsToDB
    rw [if_pos hnd]
  have hperm : (sortById l).Perm l := by
    unfold sortById
    exact List.perm_insertionSort _ l
  have hpos : (sortById l).length > 0 := by
    rw [hperm.length_eq]
    exact List.length_pos.mpr hne
  rw [hsave]
  unfold loadIncidentsFromDB
  rw [if_pos hpos]
  exact hperm

/-- Witness for C1 at the seed set. -/
theorem roundTrip_loadAll_after_replaceAll_witness :
    initialIncidents ≠ [] ∧ (initialIncidents.map Incident.id).Nodup ∧
      (loadIncidentsFromDB (saveIncidentsToDB initialIncidents [])).1.Perm
        initialIncidents :=
  ⟨by decide, by decide,
    roundTrip_loadAll_after_replaceAll initialIncidents [] (by decide) (by decide)⟩

/-- Claim C2: a load on an empty store writes the seed set and returns it, a
second load then returns the same seed set, a load on a non-empty store
returns the persisted records unmodified without touching the store, and a
load never returns an empty list. -/
theorem loadIncidents_seed_once (db : DBStore) :
    (loadIncidentsFromDB []).1 = initialIncidents ∧
    (loadIncidentsFromDB []).2 = initialIncidents ∧
    (loadIncidentsFromDB (loadIncidentsFromDB []).2).1 = initialIncidents ∧
    (db ≠ [] → loadIncidentsFromDB db = (db, db)) ∧
    (loadIncidentsFromDB db).1 ≠ [] := by
  refine ⟨by decide, by decide, by decide, ?_, ?_⟩
  · intro h
    unfold loadIncidentsFromDB
    rw [if_pos (List.length_pos.mpr h)]
  · by_cases h : db = []
    · subst h
      decide
    · unfold loadIncidentsFromDB
      rw [if_pos (List.length_pos.mpr h)]
      exact h

/-- Witness for C2 at the seed set as stored contents. -/
theorem loadIncidents_seed_once_witness :
    initialIncidents ≠ [] ∧
      loadIncidentsFromDB initialIncidents = (initialIncidents, initialIncidents) :=
  ⟨by decide, (loadIncidents_seed_once initialIncidents).2.2.2.1 (by decide)⟩

/-- Claim C4: a submission with an empty title or an empty description emits
exactly the validation error toast and changes nothing: same state (hence the
same record set and count) and no persistence call. -/
theorem handleSubmit_validation_rejection (s : DashState) (now : Nat)
    (h : s.newIncident.title = "" ∨ s.newIncident.description = "") :
    step (.submit now) s = ⟨s, [], [Toast.error "Please fill all fields"]⟩ := by
  simp only [step]
  unfold handleSubmit
  rw [if_pos h]

/-- Witness for C4: empty title, filled description. -/
theorem handleSubmit_validation_rejection_witness :
    (DashState.mk [] ⟨"", "x", .low⟩ ⟨false, 0, ""⟩ []).newIncident.title = "" ∧
      step (.submit 5) ⟨[], ⟨"", "x", .low⟩, ⟨false, 0, ""⟩, []⟩ =
        ⟨⟨[], ⟨"", "x", .low⟩, ⟨false, 0, ""⟩, []⟩, [],
          [Toast.error "Please fill all fields"]⟩ :=
  ⟨rfl, handleSubmit_validation_rejection ⟨[], ⟨"", "x", .low⟩, ⟨false, 0, ""⟩, []⟩ 5
    (Or.inl rfl)⟩

/-- Claim C7: the filter stage is the identity for the `All` filter and keeps
exactly the records whose severity equals the filter otherwise. -/
theorem filterStage_spec (l : List Incident) (s : Severity) :
    filterStage Filt.all l = l ∧
    filterStage (Filt.sev s) l = l.filter (fun i => i.severity == s) := by
  constructor
  · simp [filterStage]
  · rfl

/-- Claim C6: requesting deletion changes no record and issues no save;
cancelling changes no record and issues no save; confirmation removes exactly
the records carrying the requested id; and confirming an id present in no
record leaves the record set unchanged (a no-op, not an error). -/
theorem twoPhase_delete (s : DashState) (id : Nat) (title : String) :
    (step (.requestDelete id title) s).state.incidents = s.incidents ∧
    (step (.requestDelete id title) s).saves = [] ∧
    (step .cancelDeleteBtn s).state.incidents = s.incidents ∧
    (step .cancelDeleteBtn s).saves = [] ∧
    (step .confirmDeleteBtn s).state.incidents =
      s.incidents.filter (fun i => i.id != s.deletePopup.incidentId) ∧
    ((∀ i ∈ s.incidents, i.id ≠ s.deletePopup.incidentId) →
      (step .confirmDeleteBtn s).state.incidents = s.incidents) := by
  have hconf : (step .confirmDeleteBtn s).state.incidents =
      s.incidents.filter (fun i => i.id != s.deletePopup.incidentId) := by
    simp only [step]
    unfold confirmDelete
    exact runSaveEffect_incidents _
  refine ⟨rfl, rfl, rfl, rfl, hconf, ?_⟩
  intro h
  rw [hconf]
  apply List.filter_eq_self.mpr
  intro a ha
  simpa using h a ha

/-- Witness for C6: popup targets id 99, the only record has id 1. -/
theorem twoPhase_delete_witness :
    (∀ i ∈ (DashState.mk [⟨1, "a", "b", .low, 5⟩] ⟨"", "", .low⟩
        ⟨true, 99, "a"⟩ [⟨1, "a", "b", .low, 5⟩]).incidents,
      i.id ≠ (DashState.mk [⟨1, "a", "b", .low, 5⟩] ⟨"", "", .low⟩
        ⟨true, 99, "a"⟩ [⟨1, "a", "b", .low, 5⟩]).deletePopup.incidentId) ∧
    (step .confirmDeleteBtn
        ⟨[⟨1, "a", "b", .low, 5⟩], ⟨"", "", .low⟩,
          ⟨true, 99, "a"⟩, [⟨1, "a", "b", .low, 5⟩]⟩).state.incidents =
      [⟨1, "a", "b", .low, 5⟩] :=
  ⟨by decide,
    (twoPhase_delete ⟨[⟨1, "a", "b", .low, 5⟩], ⟨"", "", .low⟩,
      ⟨true, 99, "a"⟩, [⟨1, "a", "b", .low, 5⟩]⟩ 7 "t").2.2.2.2.2 (by decide)⟩

/-- Claim C8: the source search predicate agrees everywhere with the spec's
wording (keep iff the term is empty or title or description contains it
case-insensitively), and a record titled `LLM Hallucination` is kept for the
terms `llm`, `HALLUC` and the empty term. -/
theorem searchKeep_spec :
    (∀ term i, searchKeep term i = specSearchKeep term i) ∧
    searchKeep "llm" ⟨42, "LLM Hallucination", "d", .high, 0⟩ = true ∧
    searchKeep "HALLUC" ⟨42, "LLM Hallucination", "d", .high, 0⟩ = true ∧
    searchKeep "" ⟨42, "LLM Hallucination", "d", .high, 0⟩ = true := by
  refine ⟨?_, by decide, by decide, by decide⟩
  intro term i
  by_cases h : term = ""
  · subst h
    simp [searchKeep, specSearchKeep, jsToLower_empty, jsIncludes_empty]
  · simp [searchKeep, specSearchKeep, h]

/-- Counterexample to C3 as stated: confirming the deletion of the only
remaining incident is a mutation (the record set changes from one record to
none), yet no `saveIncidentsToDB` call is issued, because the persistence
effect is guarded by `incidents.length > 0`. -/
theorem delete_to_empty_issues_no_save :
    (step .confirmDeleteBtn
        ⟨[⟨1, "a", "b", .low, 5⟩], ⟨"", "", .low⟩,
          ⟨true, 1, "a"⟩, [⟨1, "a", "b", .low, 5⟩]⟩).state.incidents = [] ∧
    (step .confirmDeleteBtn
        ⟨[⟨1, "a", "b", .low, 5⟩], ⟨"", "", .low⟩,
          ⟨true, 1, "a"⟩, [⟨1, "a", "b", .low, 5⟩]⟩).state.incidents ≠
      [⟨1, "a", "b", .low, 5⟩] ∧
    (step .confirmDeleteBtn
        ⟨[⟨1, "a", "b", .low, 5⟩], ⟨"", "", .low⟩,
          ⟨true, 1, "a"⟩, [⟨1, "a", "b", .low, 5⟩]⟩).saves = [] := by
  decide

/-- Claim C3 (amended): every successful create issues a `saveIncidentsToDB`
call carrying the full post-mutation record set, and so does every confirmed
delete whose post-mutation set is non-empty; a confirmed delete that empties
the set issues no persistence call. -/
theorem mutation_triggers_save (s : DashState) (now : Nat) :
    ((s.newIncident.title ≠ "" ∧ s.newIncident.description ≠ "") →
      (step (.submit now) s).saves = [(step (.submit now) s).state.incidents]) ∧
    ((step .confirmDeleteBtn s).state.incidents ≠ [] →
      (step .confirmDeleteBtn s).saves =
        [(step .confirmDeleteBtn s).state.incidents]) ∧
    ((step .confirmDeleteBtn s).state.incidents = [] →
      (step .confirmDeleteBtn s).saves = []) := by
  have hconf : (step .confirmDeleteBtn s).state.incidents =
      s.incidents.filter (fun i => i.id != s.deletePopup.incidentId) := by
    simp only [step]
    unfold confirmDelete
    exact runSaveEffect_incidents _
  refine ⟨?_, ?_, ?_⟩
  · rintro ⟨ht, hd⟩
    simp [step, handleSubmit, runSaveEffect, ht, hd]
  · intro h
    rw [hconf] at h
    simp [step, confirmDelete, runSaveEffect, List.length_pos, h]
  · intro h
    rw [hconf] at h
    simp [step, confirmDelete, runSaveEffect, List.length_pos, h]

/-- Witness for the amended C3: a successful create from a filled form. -/
theorem mutation_triggers_save_witness :
    ("A" ≠ "" ∧ "B" ≠ "") ∧
    (step (.submit 100) ⟨[], ⟨"A", "B", .low⟩, ⟨false, 0, ""⟩, []⟩).saves =
      [(step (.submit 100)
          ⟨[], ⟨"A", "B", .low⟩, ⟨false, 0, ""⟩, []⟩).state.incidents] :=
  ⟨⟨by decide, by decide⟩,
    (mutation_triggers_save ⟨[], ⟨"A", "B", .low⟩, ⟨false, 0, ""⟩, []⟩ 100).1
      ⟨by decide, by decide⟩⟩

/-- Evidence for C5: two successful creates at the same clock instant
(`Date.now() = 100` both times) assign the same id: the record set ends with
ids `[100, 100]`, which violates id uniqueness, and the attempted save of that
duplicate-id snapshot aborts, leaving the store with only the first record. -/
theorem sameInstant_creates_duplicate_id :
    c5s4.incidents.map Incident.id = [100, 100] ∧
    ¬ (c5s4.incidents.map Incident.id).Nodup ∧
    c5s4.db = [⟨100, "A", "B", .low, 100⟩] := by
  decide

/-- Claim C10: every payload a step hands to `saveIncidentsToDB` is
non-empty; once the persisted store is non-empty no event can empty it; and a
confirmed delete that empties the in-memory set leaves the persisted store
exactly as it was (so it still holds the previous non-empty set). -/
theorem persisted_store_never_emptied (e : Event) (s : DashState) :
    (∀ p ∈ (step e s).saves, p ≠ []) ∧
    (s.db ≠ [] → (step e s).state.db ≠ []) ∧
    ((step .confirmDeleteBtn s).state.incidents = [] →
      (step .confirmDeleteBtn s).state.db = s.db) := by
  have heffect : ∀ t : DashState, (∀ p ∈ (runSaveEffect t).2, p ≠ []) ∧
      (t.db ≠ [] → (runSaveEffect t).1.db ≠ []) := by
    intro t
    by_cases h : t.incidents = []
    · rw [runSaveEffect_of_nil t h]
      exact ⟨by simp, fun hdb => hdb⟩
    · rw [runSaveEffect_of_ne_nil t h]
      exact ⟨by simpa using h, fun hdb => saveIncidentsToDB_ne_nil _ _ h hdb⟩
  refine ⟨?_, ?_, ?_⟩
  · cases e with
    | submit now =>
        simp only [step]
        unfold handleSubmit
        split
        · simp
        · exact (heffect _).1
    | requestDelete id title => simp [step, showDeleteConfirm]
    | confirmDeleteBtn =>
        simp only [step]
        unfold confirmDelete
        exact (heffect _).1
    | cancelDeleteBtn => simp [step, cancelDelete]
    | setTitle t => simp [step]
    | setDescription d => simp [step]
    | setSeverity v => simp [step]
  · intro hdb
    cases e with
    | submit now =>
        simp only [step]
        unfold handleSubmit
        split
        · exact hdb
        · exact (heffect _).2 hdb
    | requestDelete id title => exact hdb
    | confirmDeleteBtn =>
        simp only [step]
        unfold confirmDelete
        exact (heffect _).2 hdb
    | cancelDeleteBtn => exact hdb
    | setTitle t => exact hdb
    | setDescription d => exact hdb
    | setSeverity v => exact hdb
  · intro h
    have hconf : (step .confirmDeleteBtn s).state.incidents =
        s.incidents.filter (fun i => i.id != s.deletePopup.incidentId) := by
      simp only [step]
      unfold confirmDelete
      exact runSaveEffect_incidents _
    rw [hconf] at h
    simp [step, confirmDelete, runSaveEffect, List.length_pos, h]

/-- Witness for C10: deleting the only record leaves the store holding it. -/
theorem persisted_store_never_emptied_witness :
    ([⟨1, "a", "b", .low, 5⟩] : DBStore) ≠ [] ∧
    (step .confirmDeleteBtn
        ⟨[⟨1, "a", "b", .low, 5⟩], ⟨"", "", .low⟩,
          ⟨true, 1, "a"⟩, [⟨1, "a", "b", .low, 5⟩]⟩).state.db ≠ [] :=
  ⟨by decide,
    (persisted_store_never_emptied .confirmDeleteBtn
        ⟨[⟨1, "a", "b", .low, 5⟩], ⟨"", "", .low⟩,
          ⟨true, 1, "a"⟩, [⟨1, "a", "b", .low, 5⟩]⟩).2.1 (by decide)⟩

/-- Claim C9: the sort stage permutes its input, orders it by `reported_at`
descending for `newest` and ascending for `oldest`, and is stable: for every
timestamp value, the records carrying it appear in the output in their input
order. -/
theorem sortStage_spec (ord : SortOrder) (l : List Incident) :
    (sortStage ord l).Perm l ∧
    (sortStage SortOrder.newest l).Pairwise
      (fun a b => b.reported_at ≤ a.reported_at) ∧
    (sortStage SortOrder.oldest l).Pairwise
      (fun a b => a.reported_at ≤ b.reported_at) ∧
    ∀ t, (sortStage ord l).filter (fun i => i.reported_at == t) =
      l.filter (fun i => i.reported_at == t) := by
  refine ⟨?_, ?_, ?_, ?_⟩
  · unfold sortStage
    exact List.perm_insertionSort _ l
  · haveI : IsTotal Incident (sortLe .newest) :=
      ⟨fun a b => Nat.le_total b.reported_at a.reported_at⟩
    haveI : IsTrans Incident (sortLe .newest) :=
      ⟨fun a b c hab hbc => Nat.le_trans hbc hab⟩
    unfold sortStage
    exact List.sorted_insertionSort (sortLe .newest) l
  · haveI : IsTotal Incident (sortLe .oldest) :=
      ⟨fun a b => Nat.le_total a.reported_at b.reported_at⟩
    haveI : IsTrans Incident (sortLe .oldest) :=
      ⟨fun a b c hab hbc => Nat.le_trans hab hbc⟩
    unfold sortStage
    exact List.sorted_insertionSort (sortLe .oldest) l
  · intro t
    unfold sortStage
    apply filter_insertionSort
    intro a b ha hb
    have ha2 : a.reported_at = t := by simpa using ha
    have hb2 : b.reported_at = t := by simpa using hb
    cases ord <;> simp [sortLe, ha2, hb2]

end Sparklehood
